import Mathlib

/-! Shallow embedding of the COOP (Cross-Origin-Opener-Policy) interceptor
plugin, translated from `safehttp/plugins/coop/coop.go`, together with
spec-modelled stand-ins for the collaborator types of the `safehttp`
framework (response writer with header claiming, interceptor
configuration objects, lifecycle results), which are not part of the
source tree.
-/

namespace Coop

/-- Go: `type Mode string`, a COOP mode.  The source declares it as a
string type with three constants. -/
abbrev Mode := String

/-- Go constant `SameOrigin`. -/
def SameOrigin : Mode := "same-origin"

/-- Go constant `SameOriginAllowPopups`. -/
def SameOriginAllowPopups : Mode := "same-origin-allow-popups"

/-- Go constant `UnsafeNone`. -/
def UnsafeNone : Mode := "unsafe-none"

/-- Go: `type Policy struct { Mode Mode; ReportingGroup string; ReportOnly bool }`. -/
structure Policy where
  Mode : Mode
  ReportingGroup : String
  ReportOnly : Bool
deriving DecidableEq, Repr

/-- The double-quote character delimiting a reporting group in a
serialized directive. -/
def quoteChar : Char := '"'

/-- Go: `func (p Policy) String() string`, serializing a policy to a
header directive value. -/
def Policy.String (p : Policy) : String :=
  if p.ReportingGroup = "" then p.Mode
  else p.Mode ++ "; report-to \"" ++ p.ReportingGroup ++ "\""

/-- Go: `type Interceptor struct { rep []string; enf []string }`. -/
structure Interceptor where
  rep : List String
  enf : List String
deriving DecidableEq, Repr

/-- Go: `func NewInterceptor(policies ...Policy) Interceptor`.  The Go
loop appends `p.String()` to `rep` when `p.ReportOnly`, else to `enf`;
the fold reproduces that loop with the pair `(rep, enf)` as the two
accumulator slices. -/
def NewInterceptor (policies : List Policy) : Interceptor :=
  let acc := policies.foldl
    (fun acc p =>
      if p.ReportOnly then (acc.1 ++ [p.String], acc.2)
      else (acc.1, acc.2 ++ [p.String]))
    (([] : List String), ([] : List String))
  Interceptor.mk acc.1 acc.2

/-- Go: `func Default(reportGroup string) Interceptor`. -/
def Default (reportGroup : String) : Interceptor :=
  NewInterceptor [Policy.mk SameOrigin reportGroup false]

/-- Go: `type Overrider Interceptor`, a distinct type with the same two
fields. -/
structure Overrider where
  rep : List String
  enf : List String
deriving DecidableEq, Repr

/-- The Go conversion `Interceptor(o)` applied to an `Overrider`. -/
def Overrider.toInterceptor (o : Overrider) : Interceptor :=
  Interceptor.mk o.rep o.enf

/-- The Go conversion `Overrider(it)` applied to an `Interceptor`. -/
def Interceptor.toOverrider (it : Interceptor) : Overrider :=
  Overrider.mk it.rep it.enf

/-- Go: `func Override(policies ...Policy) Overrider`. -/
def Override (policies : List Policy) : Overrider :=
  (NewInterceptor policies).toOverrider

/-- Modelled from the spec: the `safehttp.InterceptorConfig` interface is
not under the source tree.  Per §4.6 and §6, a per-handler configuration
object either belongs to this policy domain (it is an `Overrider`) or to
an unrelated domain, summarized here by a domain name. -/
inductive InterceptorConfig where
  | coop (o : Overrider)
  | other (domain : String)
deriving DecidableEq, Repr

/-- Modelled from the spec: a registered pipeline interceptor, the
argument of the capability-match test (§4.6), is either this package's
`Interceptor` or an interceptor of an unrelated domain. -/
inductive AnyInterceptor where
  | coop (it : Interceptor)
  | other (domain : String)
deriving DecidableEq, Repr

/-- Modelled from the spec: `safehttp.Result` is not under the source
tree.  The callbacks signal whether a response body was written;
`safehttp.NotWritten()` is the "no body written" result (§4.4, §4.5). -/
inductive Result where
  | notWritten
  | written
deriving DecidableEq, Repr

/-- Go: `safehttp.NotWritten()`. -/
def NotWritten : Result := Result.notWritten

/-- Modelled from the spec: the `safehttp.ResponseWriter` header-claim
collaborator (§6) is not under the source tree.  It exposes
`claim(headerName) -> setter(sequence of string)`; we record the claims
as an ordered log of `(header name, value sequence)` pairs, so that
which headers were claimed, with which values and in which order, is
observable. -/
structure ResponseWriter where
  claims : List (String × List String)
deriving DecidableEq, Repr

/-- Modelled from the spec: `w.Header().Claim(name)(values)` — claim the
header `name` and set it to `values`, appending to the claim log. -/
def ResponseWriter.Claim (w : ResponseWriter) (name : String)
    (values : List String) : ResponseWriter :=
  ResponseWriter.mk (w.claims ++ [(name, values)])

/-- Modelled from the spec: `safehttp.IncomingRequest` is not under the
source tree; §4.4 treats it as an opaque request descriptor that this
plugin never inspects. -/
structure IncomingRequest where
  method : String
  target : String
deriving DecidableEq, Repr

/-- Modelled from the spec: `safehttp.Response` is not under the source
tree; the post-processing callbacks receive it and ignore it. -/
structure Response where
  status : Nat
deriving DecidableEq, Repr

/-- The header-claiming tail of `Before` — the operation performed once
no configuration override remains: claim the two COOP headers with the
interceptor's two sequences and return `safehttp.NotWritten()`. -/
def Interceptor.beforeHeaders (it : Interceptor) (w : ResponseWriter) :
    ResponseWriter × Result :=
  let w1 := w.Claim "Cross-Origin-Opener-Policy" it.enf
  let w2 := w1.Claim "Cross-Origin-Opener-Policy-Report-Only" it.rep
  (w2, NotWritten)

/-- Go: `func (it Interceptor) Before(w, r, cfg)`.  A non-nil `cfg` is
type-asserted with `cfg.(Overrider)`: when it is an `Overrider` the Go
code delegates with `Interceptor(cfg.(Overrider)).Before(w, r, nil)`;
since a call with a nil config is exactly `beforeHeaders`, the
delegation is written in that factored, non-recursive form (the equality
with the literal recursive call is proved in `before_override_delegates`
below).  A failed type assertion — a non-nil config of another domain —
panics, modelled as `none`. -/
def Interceptor.Before (it : Interceptor) (w : ResponseWriter)
    (r : IncomingRequest) (cfg : Option InterceptorConfig) :
    Option (ResponseWriter × Result) :=
  match cfg with
  | some (InterceptorConfig.coop o) => some (o.toInterceptor.beforeHeaders w)
  | some (InterceptorConfig.other _) => none
  | none => some (it.beforeHeaders w)

/-- Go: `func (it Interceptor) Commit(w, r, resp, _)`, a no-op. -/
def Interceptor.Commit (it : Interceptor) (w : ResponseWriter)
    (r : IncomingRequest) (resp : Response)
    (cfg : Option InterceptorConfig) : Result :=
  NotWritten

/-- Go: `func (it Interceptor) OnError(w, r, resp, _)`, a no-op. -/
def Interceptor.OnError (it : Interceptor) (w : ResponseWriter)
    (r : IncomingRequest) (resp : Response)
    (cfg : Option InterceptorConfig) : Result :=
  NotWritten

/-- Go: `func (p Overrider) Match(i safehttp.Interceptor) bool`, the
type-assertion test `_, ok := i.(Interceptor)`. -/
def Overrider.Match (p : Overrider) (i : AnyInterceptor) : Bool :=
  match i with
  | AnyInterceptor.coop _ => true
  | AnyInterceptor.other _ => false

/-- The literal separator text between the mode token and the quoted
reporting group in a serialized directive. -/
def sepText : String := "; report-to \""

/-- Drop an expected token from the front of a character list: `some`
of the remainder when the token is a prefix, `none` otherwise. -/
def dropToken : List Char → List Char → Option (List Char)
  | [], s => some s
  | _ :: _, [] => none
  | t :: ts, c :: cs => if c = t then dropToken ts cs else none

/-- Hand-written inverse of `Policy.String` for one candidate mode: a
directive equal to the bare mode token yields a policy with an empty
reporting group; a directive of the form
`<mode>; report-to "<group>"` yields the mode and the group (the text
between the separator and the final double quote, taken verbatim). -/
def tryParseAs (m : Mode) (s : List Char) (reportOnly : Bool) : Option Policy :=
  if s = m.data then some (Policy.mk m "" reportOnly)
  else
    match dropToken (m.data ++ sepText.data) s with
    | none => none
    | some rest =>
      if rest.getLast? = some quoteChar then
        some (Policy.mk m (String.mk rest.dropLast) reportOnly)
      else none

/-- Hand-written inverse parser for serialized directives: try the three
modes in turn, with the report-only flag supplied by which of the two
sequences the directive came from. -/
def parsePolicy (s : String) (reportOnly : Bool) : Option Policy :=
  match tryParseAs SameOrigin s.data reportOnly with
  | some p => some p
  | none =>
    match tryParseAs SameOriginAllowPopups s.data reportOnly with
    | some p => some p
    | none => tryParseAs UnsafeNone s.data reportOnly

/-- The directive grammar of the spec (§6): a mode token alone, or a
mode token followed by `; report-to "` and a quoted group, the mode one
of the three COOP tokens. -/
def ConformsToGrammar (s : String) : Prop :=
  ∃ m : Mode, (m = SameOrigin ∨ m = SameOriginAllowPopups ∨ m = UnsafeNone) ∧
    (s = m ∨ ∃ g : String, s = m ++ "; report-to \"" ++ g ++ "\"")

/-- A small concrete policy list exercising all three modes, both flag
values, and both reporting-group shapes; used by the witnesses. -/
def demoPolicies : List Policy :=
  [Policy.mk SameOrigin "" false,
   Policy.mk SameOriginAllowPopups "grp1" true,
   Policy.mk UnsafeNone "r2" false,
   Policy.mk SameOrigin "g" true]

end Coop

namespace Coop

/-- The loop of `NewInterceptor`, generalized over the accumulator: the
report-only serializations are appended to the first slice and the
enforced ones to the second, in input order. -/
theorem newInterceptor_foldl (ps : List Policy) (acc : List String × List String) :
    ps.foldl
      (fun acc p =>
        if p.ReportOnly then (acc.1 ++ [p.String], acc.2)
        else (acc.1, acc.2 ++ [p.String]))
      acc
      = (acc.1 ++ (ps.filter fun p => p.ReportOnly).map Policy.String,
         acc.2 ++ (ps.filter fun p => !p.ReportOnly).map Policy.String) := by
  induction ps generalizing acc with
  | nil => simp
  | cons p ps ih =>
    cases hro : p.ReportOnly <;>
      simp [List.foldl_cons, hro, ih, List.filter_cons, List.append_assoc]

/-- The two sequences of `NewInterceptor ps`, characterized as filters of
the input list. -/
theorem newInterceptor_rep_enf (ps : List Policy) :
    (NewInterceptor ps).rep = (ps.filter fun p => p.ReportOnly).map Policy.String
    ∧ (NewInterceptor ps).enf = (ps.filter fun p => !p.ReportOnly).map Policy.String := by
  unfold NewInterceptor
  rw [newInterceptor_foldl]
  simp

/-- Auxiliary: the two filters by the report-only flag split the length
of the policy list. -/
theorem filter_reportOnly_length (ps : List Policy) :
    (ps.filter fun p => !p.ReportOnly).length
      + (ps.filter fun p => p.ReportOnly).length = ps.length := by
  induction ps with
  | nil => rfl
  | cons p ps ih =>
    cases hro : p.ReportOnly <;> simp [List.filter_cons, hro] <;> omega

/-- C3: `NewInterceptor` (and `Override`, built by the same algorithm)
partitions the input exactly: each policy contributes its serialization
to `enf` when its `ReportOnly` flag is false and to `rep` when it is
true, input order is preserved inside each sequence, and the lengths of
the two sequences sum to the input length. -/
theorem newInterceptor_partition (ps : List Policy) :
    (NewInterceptor ps).enf = (ps.filter fun p => !p.ReportOnly).map Policy.String
    ∧ (NewInterceptor ps).rep = (ps.filter fun p => p.ReportOnly).map Policy.String
    ∧ (NewInterceptor ps).enf.length + (NewInterceptor ps).rep.length = ps.length
    ∧ (Override ps).enf = (NewInterceptor ps).enf
    ∧ (Override ps).rep = (NewInterceptor ps).rep := by
  obtain ⟨hrep, henf⟩ := newInterceptor_rep_enf ps
  refine ⟨henf, hrep, ?_, rfl, rfl⟩
  rw [henf, hrep, List.length_map, List.length_map]
  exact filter_reportOnly_length ps

/-- C4: serialization returns exactly the mode token when the reporting
group is empty, and otherwise the mode token, the literal text
`; report-to "`, the group verbatim, and a closing double quote, with no
escaping applied to the group (stated both at the string level and at
the character level, and checked on a group that itself contains a
double quote). -/
theorem policy_string_serialization (p : Policy) :
    p.String = (if p.ReportingGroup = "" then p.Mode
      else p.Mode ++ "; report-to \"" ++ p.ReportingGroup ++ "\"")
    ∧ (p.String).data
        = p.Mode.data
            ++ (if p.ReportingGroup = "" then []
                else ("; report-to \"").data ++ p.ReportingGroup.data ++ [quoteChar])
    ∧ (Policy.mk SameOrigin "a\"b" false).String
        = "same-origin; report-to \"a\"b\"" := by
  refine ⟨rfl, ?_, by decide⟩
  by_cases hg : p.ReportingGroup = "" <;>
    simp [Policy.String, hg, String.data_append, quoteChar]

/-- C7: `Default g` is the interceptor built from the single enforcing
policy with mode `same-origin`, reporting group `g` and a false
report-only flag; its report-only sequence is empty, its enforced
sequence is that policy's serialization alone, and the two concrete
cases of the spec hold. -/
theorem default_interceptor (g : String) :
    Default g = NewInterceptor [Policy.mk SameOrigin g false]
    ∧ (Default g).rep = []
    ∧ (Default g).enf = [(Policy.mk SameOrigin g false).String]
    ∧ Default "" = Interceptor.mk [] ["same-origin"]
    ∧ (Default "g").enf = ["same-origin; report-to \"g\""] := by
  obtain ⟨hrep, henf⟩ := newInterceptor_rep_enf [Policy.mk SameOrigin g false]
  refine ⟨rfl, ?_, ?_, by decide, by decide⟩
  · simpa [List.filter_cons] using hrep
  · simpa [List.filter_cons] using henf

/-- Auxiliary: rebuilding a string from its character data is the
identity. -/
theorem string_mk_data (g : String) : String.mk g.data = g := by
  cases g
  rfl

/-- Auxiliary: `dropToken` succeeds exactly on strings that start with
the token, returning the remainder. -/
theorem dropToken_eq_some (t : List Char) : ∀ s r : List Char,
    dropToken t s = some r ↔ s = t ++ r := by
  induction t with
  | nil =>
    intro s r
    simp [dropToken]
  | cons c ts ih =>
    intro s r
    cases s with
    | nil => simp [dropToken]
    | cons a as =>
      by_cases hac : a = c
      · subst hac
        simp [dropToken, ih]
      · simp [dropToken, hac]

/-- Auxiliary: `dropToken` fails whenever the scanned string and the
token already disagree on their first 24 characters. -/
theorem dropToken_none_take (t hd tail : List Char)
    (ht : 24 ≤ t.length) (hh : 24 ≤ hd.length)
    (hne : hd.take 24 ≠ t.take 24) :
    dropToken t (hd ++ tail) = none := by
  cases h : dropToken t (hd ++ tail) with
  | none => rfl
  | some r =>
    rw [dropToken_eq_some] at h
    have h24 := congrArg (List.take 24) h
    rw [List.take_append_of_le_length hh, List.take_append_of_le_length ht] at h24
    exact absurd h24 hne

/-- Auxiliary: a serialized quoted directive is never equal to a bare
mode token, by length. -/
theorem ne_bare (m : Mode) (hd : List Char) (g : String)
    (hm : m.data.length ≤ 24) (hh : 24 ≤ hd.length) :
    hd ++ (g.data ++ [quoteChar]) ≠ m.data := by
  intro h
  have hl := congrArg List.length h
  simp only [List.length_append, List.length_singleton] at hl
  omega

/-- Auxiliary: `tryParseAs` fails when both the bare-token test and the
quoted-form token test fail. -/
theorem tryParseAs_none (m : Mode) (s : List Char) (ro : Bool)
    (h1 : s ≠ m.data)
    (h2 : dropToken (m.data ++ sepText.data) s = none) :
    tryParseAs m s ro = none := by
  unfold tryParseAs
  rw [if_neg h1, h2]

/-- Auxiliary: `tryParseAs` recovers the mode, group and flag from a
quoted directive serialized with the same mode. -/
theorem tryParseAs_quoted (m : Mode) (g : String) (ro : Bool) :
    tryParseAs m ((m.data ++ sepText.data) ++ (g.data ++ [quoteChar])) ro
      = some (Policy.mk m g ro) := by
  have hsep : sepText.data.length = 13 := by decide
  have hne : (m.data ++ sepText.data) ++ (g.data ++ [quoteChar]) ≠ m.data := by
    intro h
    have hl := congrArg List.length h
    simp only [List.length_append, List.length_singleton] at hl
    omega
  have hdrop : dropToken (m.data ++ sepText.data)
      ((m.data ++ sepText.data) ++ (g.data ++ [quoteChar]))
      = some (g.data ++ [quoteChar]) :=
    (dropToken_eq_some _ _ _).mpr rfl
  unfold tryParseAs
  rw [if_neg hne, hdrop]
  simp [List.getLast?_concat, List.dropLast_concat, string_mk_data]

/-- Auxiliary: the character data of a quoted serialization, split at
the separator. -/
theorem policy_string_data_quoted (m : Mode) (g : String) (ro : Bool)
    (hg : g ≠ "") :
    (Policy.mk m g ro).String.data
      = (m.data ++ sepText.data) ++ (g.data ++ [quoteChar]) := by
  have hq : ("\"" : String).data = [quoteChar] := by decide
  simp [Policy.String, hg, sepText, String.data_append, hq, quoteChar,
    List.append_assoc]

/-- Auxiliary: the inverse parser recovers any policy whose mode is one
of the three COOP constants from its serialization together with its
report-only flag. -/
theorem parse_roundTrip (p : Policy)
    (hm : p.Mode = SameOrigin ∨ p.Mode = SameOriginAllowPopups ∨ p.Mode = UnsafeNone) :
    parsePolicy p.String p.ReportOnly = some p := by
  obtain ⟨m, g, ro⟩ := p
  simp only at hm
  by_cases hg : g = ""
  · subst hg
    rcases hm with hm | hm | hm <;> subst hm <;> cases ro <;> decide
  · have hdata := policy_string_data_quoted m g ro hg
    rcases hm with hm | hm | hm <;> subst hm
    · have h1 := tryParseAs_quoted SameOrigin g ro
      unfold parsePolicy
      rw [show (Policy.mk SameOrigin g ro).ReportOnly = ro from rfl, hdata]
      simp only [List.append_assoc] at h1 ⊢
      simp [h1]
    · have h1 : tryParseAs SameOrigin
          ((SameOriginAllowPopups.data ++ sepText.data) ++ (g.data ++ [quoteChar])) ro
          = none :=
        tryParseAs_none _ _ _
          (ne_bare _ _ _ (by decide) (by decide))
          (dropToken_none_take _ _ _ (by decide) (by decide) (by decide))
      have h2 := tryParseAs_quoted SameOriginAllowPopups g ro
      unfold parsePolicy
      rw [show (Policy.mk SameOriginAllowPopups g ro).ReportOnly = ro from rfl, hdata]
      simp only [List.append_assoc] at h1 h2 ⊢
      simp [h1, h2]
    · have h1 : tryParseAs SameOrigin
          ((UnsafeNone.data ++ sepText.data) ++ (g.data ++ [quoteChar])) ro
          = none :=
        tryParseAs_none _ _ _
          (ne_bare _ _ _ (by decide) (by decide))
          (dropToken_none_take _ _ _ (by decide) (by decide) (by decide))
      have h2 : tryParseAs SameOriginAllowPopups
          ((UnsafeNone.data ++ sepText.data) ++ (g.data ++ [quoteChar])) ro
          = none :=
        tryParseAs_none _ _ _
          (ne_bare _ _ _ (by decide) (by decide))
          (dropToken_none_take _ _ _ (by decide) (by decide) (by decide))
      have h3 := tryParseAs_quoted UnsafeNone g ro
      unfold parsePolicy
      rw [show (Policy.mk UnsafeNone g ro).ReportOnly = ro from rfl, hdata]
      simp only [List.append_assoc] at h1 h2 h3 ⊢
      simp [h1, h2, h3]

/-- C5: every string produced by `NewInterceptor` round-trips — the
lengths of the two output sequences sum to the input length, and mapping
the inverse parser (with the flag given by which sequence the string
landed in) over each sequence recovers exactly the corresponding input
policies, in order. -/
theorem newInterceptor_roundTrip (ps : List Policy)
    (hm : ∀ p ∈ ps, p.Mode = SameOrigin ∨ p.Mode = SameOriginAllowPopups
      ∨ p.Mode = UnsafeNone) :
    (NewInterceptor ps).enf.length + (NewInterceptor ps).rep.length = ps.length
    ∧ (NewInterceptor ps).enf.map (fun s => parsePolicy s false)
        = (ps.filter fun p => !p.ReportOnly).map some
    ∧ (NewInterceptor ps).rep.map (fun s => parsePolicy s true)
        = (ps.filter fun p => p.ReportOnly).map some := by
  obtain ⟨hrep, henf⟩ := newInterceptor_rep_enf ps
  refine ⟨?_, ?_, ?_⟩
  · rw [henf, hrep, List.length_map, List.length_map]
    exact filter_reportOnly_length ps
  · rw [henf, List.map_map]
    refine List.map_congr_left ?_
    intro p hp
    have hmem := List.mem_of_mem_filter hp
    have hro : p.ReportOnly = false := by
      have := (List.mem_filter.mp hp).2
      simpa using this
    have hrt := parse_roundTrip p (hm p hmem)
    rw [hro] at hrt
    simpa using hrt
  · rw [hrep, List.map_map]
    refine List.map_congr_left ?_
    intro p hp
    have hmem := List.mem_of_mem_filter hp
    have hro : p.ReportOnly = true := (List.mem_filter.mp hp).2
    have hrt := parse_roundTrip p (hm p hmem)
    rw [hro] at hrt
    simpa using hrt

/-- Witness for C5: the round-trip theorem applied to the concrete
four-policy list `demoPolicies`, its mode hypothesis discharged by
evaluation. -/
theorem newInterceptor_roundTrip_witness :
    (∀ p ∈ demoPolicies, p.Mode = SameOrigin ∨ p.Mode = SameOriginAllowPopups
      ∨ p.Mode = UnsafeNone)
    ∧ ((NewInterceptor demoPolicies).enf.length
          + (NewInterceptor demoPolicies).rep.length = demoPolicies.length
        ∧ (NewInterceptor demoPolicies).enf.map (fun s => parsePolicy s false)
            = (demoPolicies.filter fun p => !p.ReportOnly).map some
        ∧ (NewInterceptor demoPolicies).rep.map (fun s => parsePolicy s true)
            = (demoPolicies.filter fun p => p.ReportOnly).map some) :=
  ⟨by decide, newInterceptor_roundTrip demoPolicies (by decide)⟩

/-- C9: every element of either sequence of an interceptor or override
built from policies whose modes are COOP mode constants conforms to the
directive grammar — a bare mode token, or a mode token followed by
`; report-to "` and a quoted group. -/
theorem directives_conform (ps : List Policy)
    (hm : ∀ p ∈ ps, p.Mode = SameOrigin ∨ p.Mode = SameOriginAllowPopups
      ∨ p.Mode = UnsafeNone)
    (s : String)
    (hs : s ∈ (NewInterceptor ps).enf ++ (NewInterceptor ps).rep
      ∨ s ∈ (Override ps).enf ++ (Override ps).rep) :
    ConformsToGrammar s := by
  obtain ⟨hrep, henf⟩ := newInterceptor_rep_enf ps
  have hs' : s ∈ (NewInterceptor ps).enf ++ (NewInterceptor ps).rep := by
    rcases hs with hs | hs
    · exact hs
    · simpa [Override, Interceptor.toOverrider] using hs
  rw [henf, hrep] at hs'
  rcases List.mem_append.mp hs' with hs' | hs' <;>
  · obtain ⟨p, hp, hps⟩ := List.mem_map.mp hs'
    have hmode := hm p (List.mem_of_mem_filter hp)
    refine ⟨p.Mode, hmode, ?_⟩
    by_cases hg : p.ReportingGroup = ""
    · left
      rw [← hps]
      simp [Policy.String, hg]
    · right
      refine ⟨p.ReportingGroup, ?_⟩
      rw [← hps]
      simp [Policy.String, hg]

/-- Witness for C9: the grammar theorem applied to the directive
`same-origin`, an element of the enforced sequence built from
`demoPolicies`, with both hypotheses discharged by evaluation. -/
theorem directives_conform_witness :
    (∀ p ∈ demoPolicies, p.Mode = SameOrigin ∨ p.Mode = SameOriginAllowPopups
      ∨ p.Mode = UnsafeNone)
    ∧ ("same-origin" ∈ (NewInterceptor demoPolicies).enf
          ++ (NewInterceptor demoPolicies).rep
        ∨ "same-origin" ∈ (Override demoPolicies).enf
          ++ (Override demoPolicies).rep)
    ∧ ConformsToGrammar "same-origin" :=
  ⟨by decide, by decide,
    directives_conform demoPolicies (by decide) "same-origin" (by decide)⟩

/-- C1: with a configuration object of this domain present, `Before`
delegates — the result is exactly a `Before` run with no configuration
on an interceptor carrying the override's two sequences, so the claimed
header values are the override's `enf` and `rep`, never the receiving
interceptor's own. -/
theorem before_override_delegates (it : Interceptor) (w : ResponseWriter)
    (r : IncomingRequest) (o : Overrider) :
    it.Before w r (some (InterceptorConfig.coop o))
      = o.toInterceptor.Before w r none
    ∧ it.Before w r (some (InterceptorConfig.coop o))
      = some (ResponseWriter.mk (w.claims
          ++ [("Cross-Origin-Opener-Policy", o.enf),
              ("Cross-Origin-Opener-Policy-Report-Only", o.rep)]),
          NotWritten) := by
  constructor
  · rfl
  · simp [Interceptor.Before, Interceptor.beforeHeaders, ResponseWriter.Claim,
      Overrider.toInterceptor]

/-- Counterexample for C2: a non-nil configuration object of an
unrelated domain makes `Before` fail (the Go type assertion
`cfg.(Overrider)` panics), modelled by the `none` result — it does not
complete normally with the interceptor's own sequences. -/
theorem before_foreign_config_fails :
    (Default "").Before (ResponseWriter.mk [])
      (IncomingRequest.mk "GET" "/")
      (some (InterceptorConfig.other "csp")) = none := rfl

/-- C2 as amended: for every non-nil configuration object that is not an
`Overrider` of this domain, `Before` panics on the failed type assertion
and produces no result; the interceptor's own sequences are emitted
exactly when no configuration object is supplied. -/
theorem before_foreign_config_always_fails (it : Interceptor)
    (w : ResponseWriter) (r : IncomingRequest) (d : String) :
    it.Before w r (some (InterceptorConfig.other d)) = none
    ∧ it.Before w r none
      = some (ResponseWriter.mk (w.claims
          ++ [("Cross-Origin-Opener-Policy", it.enf),
              ("Cross-Origin-Opener-Policy-Report-Only", it.rep)]),
          NotWritten) := by
  constructor
  · rfl
  · simp [Interceptor.Before, Interceptor.beforeHeaders, ResponseWriter.Claim]

/-- C6: the capability-match test accepts exactly the interceptors of
this COOP domain, regardless of the override's contents and of the
candidate interceptor's contents. -/
theorem overrider_match_iff (p : Overrider) (i : AnyInterceptor) :
    p.Match i = true ↔ ∃ it : Interceptor, i = AnyInterceptor.coop it := by
  cases i with
  | coop it => simp [Overrider.Match]
  | other d => simp [Overrider.Match]

/-- C8: for every interceptor, response writer, request, response and
configuration — the configuration for `Before` being absent or an
override of this domain — each lifecycle callback reports that no
response body was written. -/
theorem callbacks_never_write (it : Interceptor) (w : ResponseWriter)
    (r : IncomingRequest) (resp : Response) (oc : Option Overrider)
    (cfg : Option InterceptorConfig) :
    (∃ w2, it.Before w r (oc.map InterceptorConfig.coop)
      = some (w2, NotWritten))
    ∧ it.Commit w r resp cfg = NotWritten
    ∧ it.OnError w r resp cfg = NotWritten := by
  refine ⟨?_, rfl, rfl⟩
  cases oc with
  | none => exact ⟨_, rfl⟩
  | some o => exact ⟨_, rfl⟩

/-- C10: a `Before` run that does not delegate claims exactly the two
COOP headers, in order — first the enforcing header with the enforced
sequence, then the report-only header with the report-only sequence —
and leaves every other claim of the response untouched. -/
theorem before_claims_exactly (it : Interceptor) (w : ResponseWriter)
    (r : IncomingRequest) :
    it.Before w r none
      = some (ResponseWriter.mk (w.claims
          ++ [("Cross-Origin-Opener-Policy", it.enf),
              ("Cross-Origin-Opener-Policy-Report-Only", it.rep)]),
          NotWritten) := by
  simp [Interceptor.Before, Interceptor.beforeHeaders, ResponseWriter.Claim]

end Coop

